import Mathlib

/-!
Shallow embedding of the `shutil` crate (files `src/lib.rs` and
`src/error.rs`): a shell-pipeline executor `pipe` that spawns a chain of
external commands, wires each stage's stdout to the next stage's stdin,
and returns the last stage's captured stdout or a classified error.

The operating system's process facilities (spawn, wait-and-capture) are
modelled as an explicit capability record `Os`, following the seam
described in the design notes; `pipe` is a pure function of the pipeline
and that capability.  Byte strings are `List Nat`; a Rust `String` is
represented by its UTF-8 bytes, so `String::from_utf8` is modelled by the
validator `utf8Valid` and returns the bytes unchanged when they are valid.
-/

namespace Shutil

/-- The error kinds used by `pipe` in `src/lib.rs`.  Modelled from the spec:
`src/src/error.rs` declares only `OsError`, `UnknownError`, `ExecError` and
`UnicodeDecodeError`, but `src/lib.rs` (and its tests) also construct
`ErrorKind::InvalidFormatError`, a variant missing from the declared enum;
the spec's closed five-member set supplies that missing variant. -/
inductive ErrorKind where
  | osError
  | unknownError
  | execError
  | unicodeDecodeError
  | invalidFormatError
  deriving DecidableEq, Repr

/-- The variant names actually declared by the `ErrorKind` enum in
`src/src/error.rs`, lines 4-10, in declaration order. -/
def errorRsVariants : List String :=
  ["OsError", "UnknownError", "ExecError", "UnicodeDecodeError"]

/-- The Rust name of each `ErrorKind` value used by `src/lib.rs`. -/
def kindName : ErrorKind → String
  | .osError => "OsError"
  | .unknownError => "UnknownError"
  | .execError => "ExecError"
  | .unicodeDecodeError => "UnicodeDecodeError"
  | .invalidFormatError => "InvalidFormatError"

/-- Structure `shutil::Error` from `src/src/error.rs`: a kind, an optional
integer code, and a human-readable details string. -/
structure Error where
  kind : ErrorKind
  code : Option Int
  details : String
  deriving DecidableEq, Repr

/-- A `std::process::Command` descriptor as configured by `pipe`:
program, arguments, whether stdout is set to `Stdio::piped()`, and the
optional stdin handle (a pipe handle taken from a previous child's
stdout).  Handles are abstract identifiers (`Nat`). -/
structure Command where
  program : String
  args : List String
  stdoutPiped : Bool
  stdin : Option Nat
  deriving DecidableEq, Repr

/-- Result of `Command::spawn()`: on success, the child's optional stdout
handle together with the exit status the child will eventually produce
(never inspected by `pipe` — spawned stages are not awaited, per the
concurrency model); on failure, the io error's message. -/
inductive SpawnResult where
  | ok (stdout : Option Nat) (exitStatus : Option Int)
  | err (msg : String)
  deriving DecidableEq, Repr

/-- Whether a spawn succeeded. -/
def SpawnResult.isOk : SpawnResult → Bool
  | .ok _ _ => true
  | .err _ => false

/-- Result of `Command::output()` on the last stage: on success, the
triple (`status.success()`, `status.code()`, captured stdout bytes); on
failure, the io error's `raw_os_error()` and message. -/
inductive RunResult where
  | ok (success : Bool) (code : Option Int) (stdout : List Nat)
  | err (rawOsError : Option Int) (msg : String)
  deriving DecidableEq, Repr

/-- The operating-system process capability: `spawn` starts a configured
command asynchronously, `output` runs a configured command to completion
capturing its stdout (Rust's `Command::spawn` / `Command::output`). -/
structure Os where
  spawn : Command → SpawnResult
  output : Command → RunResult

/-- A UTF-8 continuation byte (`0x80..=0xBF`). -/
def isCont (b : Nat) : Bool := 0x80 ≤ b && b ≤ 0xBF

/-- Validity of a byte sequence as UTF-8, as checked by Rust's
`String::from_utf8` (rejecting overlong forms, surrogates, and code
points above U+10FFFF). -/
def utf8Valid : List Nat → Bool
  | [] => true
  | b :: rest =>
    if b ≤ 0x7F then utf8Valid rest
    else if 0xC2 ≤ b && b ≤ 0xDF then
      match rest with
      | c1 :: r => isCont c1 && utf8Valid r
      | [] => false
    else if b = 0xE0 then
      match rest with
      | c1 :: c2 :: r => (0xA0 ≤ c1 && c1 ≤ 0xBF) && isCont c2 && utf8Valid r
      | _ => false
    else if (0xE1 ≤ b && b ≤ 0xEC) || (0xEE ≤ b && b ≤ 0xEF) then
      match rest with
      | c1 :: c2 :: r => isCont c1 && isCont c2 && utf8Valid r
      | _ => false
    else if b = 0xED then
      match rest with
      | c1 :: c2 :: r => (0x80 ≤ c1 && c1 ≤ 0x9F) && isCont c2 && utf8Valid r
      | _ => false
    else if b = 0xF0 then
      match rest with
      | c1 :: c2 :: c3 :: r =>
        (0x90 ≤ c1 && c1 ≤ 0xBF) && isCont c2 && isCont c3 && utf8Valid r
      | _ => false
    else if 0xF1 ≤ b && b ≤ 0xF3 then
      match rest with
      | c1 :: c2 :: c3 :: r =>
        isCont c1 && isCont c2 && isCont c3 && utf8Valid r
      | _ => false
    else if b = 0xF4 then
      match rest with
      | c1 :: c2 :: c3 :: r =>
        (0x80 ≤ c1 && c1 ≤ 0x8F) && isCont c2 && isCont c3 && utf8Valid r
      | _ => false
    else false

/-- The command descriptor built for one pipeline stage (`src/lib.rs`
lines 48-57): program = token 0, args = tokens 1.., stdout piped, stdin
initially unset. -/
def mkCommand (commandStr : List String) : Command :=
  { program := commandStr.headI
    args := commandStr.drop 1
    stdoutPiped := true
    stdin := none }

/-- Classification of the last stage's `output()` result (`src/lib.rs`
lines 89-118): non-zero exit → `ExecError` with the process's exit code;
invalid UTF-8 stdout → `UnicodeDecodeError`; start failure → `OsError`
with the raw OS error number when present, else `UnknownError`; otherwise
the captured stdout bytes are returned as the decoded string. -/
def finalize (r : RunResult) : Except Error (List Nat) :=
  match r with
  | .ok success code stdout =>
    if !success then
      .error ⟨.execError, code, "non-zero exit code"⟩
    else if utf8Valid stdout then
      .ok stdout
    else
      .error ⟨.unicodeDecodeError, none, "utf-8 decode failed"⟩
  | .err rawOsError msg =>
    match rawOsError with
    | some n => .error ⟨.osError, some n, msg⟩
    | none => .error ⟨.unknownError, none, msg⟩

/-- The `for i in 0..commands.len()` loop of `pipe` (`src/lib.rs` lines
37-78) followed by the final `match last_command` (lines 81-119).  State:
the remaining stages, `last_command`, and (for observation) the list of
commands successfully passed to `Os.spawn` so far, in order.  Each
iteration validates the current stage (empty → `InvalidFormatError`),
builds its descriptor, then spawns the previous stage's command and, when
the spawned child exposes a stdout handle, binds it as the current
stage's stdin; a spawn failure aborts with `ExecError` and the sentinel
code -1. -/
def pipeLoop (os : Os) :
    List (List String) → Option Command → List Command →
    Except Error (List Nat) × List Command
  | [], lastCommand, spawned =>
    match lastCommand with
    | none =>
      (.error ⟨.invalidFormatError, some (-1), "no commands supplied"⟩, spawned)
    | some cmd => (finalize (os.output cmd), spawned)
  | commandStr :: rest, lastCommand, spawned =>
    if commandStr.length = 0 then
      (.error ⟨.invalidFormatError, some (-1), "no command binary supplied"⟩,
        spawned)
    else
      let command := mkCommand commandStr
      match lastCommand with
      | none => pipeLoop os rest (some command) spawned
      | some prev =>
        match os.spawn prev with
        | .ok stdoutHandle _ =>
          let command :=
            match stdoutHandle with
            | some h => { command with stdin := some h }
            | none => command
          pipeLoop os rest (some command) (spawned ++ [prev])
        | .err msg =>
          (.error ⟨.execError, some (-1), "spawning failed: " ++ msg⟩, spawned)

/-- Function `pipe` from `src/lib.rs` lines 26-120, instrumented to also
report the list of spawned commands: the `commands.len() < 1` guard, then
the stage loop and final execution. -/
def pipeFull (os : Os) (commands : List (List String)) :
    Except Error (List Nat) × List Command :=
  if commands.length < 1 then
    (.error ⟨.invalidFormatError, some (-1), "no commands supplied"⟩, [])
  else
    pipeLoop os commands none []

/-- The return value of `pipe`: the last stage's decoded stdout or a
classified `Error`. -/
def pipe (os : Os) (commands : List (List String)) : Except Error (List Nat) :=
  (pipeFull os commands).1

/-- The commands successfully spawned (in order) during a `pipe` run. -/
def spawnTrace (os : Os) (commands : List (List String)) : List Command :=
  (pipeFull os commands).2

deriving instance DecidableEq for Except

/-- Concrete OS capability in which every spawn succeeds (stdout handle 0,
eventual exit status 0) and the last stage succeeds with stdout bytes
"hi\n". -/
def osAllOk : Os :=
  { spawn := fun _ => .ok (some 0) (some 0)
    output := fun _ => .ok true (some 0) [104, 105, 10] }

/-- Concrete OS capability in which every spawn attempt fails. -/
def osSpawnFail : Os :=
  { spawn := fun _ => .err "boom"
    output := fun _ => .ok true (some 0) [] }

/-- Concrete OS capability in which spawns succeed but the last stage
cannot be started (ENOENT, raw OS error 2). -/
def osStartFail : Os :=
  { spawn := fun _ => .ok (some 0) (some 0)
    output := fun _ => .err (some 2) "No such file or directory (os error 2)" }

/-- Concrete OS capability in which the last stage exits with status 1. -/
def osExitOne : Os :=
  { spawn := fun _ => .ok (some 0) (some 0)
    output := fun _ => .ok false (some 1) [] }

/-- Concrete OS capability in which the last stage exits successfully but
emits a byte that is not valid UTF-8. -/
def osBadUtf8 : Os :=
  { spawn := fun _ => .ok (some 0) (some 0)
    output := fun _ => .ok true (some 0) [255] }

/-- Concrete OS capability in which spawning the program named "bad"
fails and every other spawn succeeds. -/
def osSpawnFailOnBad : Os :=
  { spawn := fun c => if c.program = "bad" then .err "boom" else .ok (some 0) (some 0)
    output := fun _ => .ok true (some 0) [] }

/-- Concrete OS capability in which spawns succeed but the child exposes
no stdout handle. -/
def osNoHandle : Os :=
  { spawn := fun _ => .ok none (some 0)
    output := fun _ => .ok true (some 0) [] }

/-- Concrete OS capability identical to `osAllOk` except that every
spawned intermediate stage eventually exits with status 1 instead of 0. -/
def osAllOkExitOne : Os :=
  { spawn := fun _ => .ok (some 0) (some 1)
    output := fun _ => .ok true (some 0) [104, 105, 10] }

/-- Unfolding lemma: an empty stage aborts the loop with
`InvalidFormatError` before any further spawn. -/
theorem pipeLoop_empty_stage {os : Os} {rest : List (List String)}
    {lc : Option Command} {spawned : List Command} :
    pipeLoop os ([] :: rest) lc spawned =
      (.error ⟨.invalidFormatError, some (-1), "no command binary supplied"⟩,
        spawned) := by
  simp [pipeLoop]

/-- Unfolding lemma: on the first stage there is no previous command to
spawn; the loop moves on with the freshly built descriptor. -/
theorem pipeLoop_step_none {os : Os} {a : String} {as : List String}
    {rest : List (List String)} {spawned : List Command} :
    pipeLoop os ((a :: as) :: rest) none spawned =
      pipeLoop os rest (some (mkCommand (a :: as))) spawned := by
  simp [pipeLoop]

/-- Unfolding lemma: when the previous command spawns with a stdout
handle, that handle becomes the current stage's stdin. -/
theorem pipeLoop_step_some_ok_some {os : Os} {a : String} {as : List String}
    {rest : List (List String)} {prev : Command} {spawned : List Command}
    {h : Nat} {e : Option Int} (he : os.spawn prev = .ok (some h) e) :
    pipeLoop os ((a :: as) :: rest) (some prev) spawned =
      pipeLoop os rest (some { mkCommand (a :: as) with stdin := some h })
        (spawned ++ [prev]) := by
  simp [pipeLoop, he]

/-- Unfolding lemma: when the previous command spawns without a stdout
handle, the current stage's stdin is silently left unconfigured. -/
theorem pipeLoop_step_some_ok_none {os : Os} {a : String} {as : List String}
    {rest : List (List String)} {prev : Command} {spawned : List Command}
    {e : Option Int} (he : os.spawn prev = .ok none e) :
    pipeLoop os ((a :: as) :: rest) (some prev) spawned =
      pipeLoop os rest (some (mkCommand (a :: as))) (spawned ++ [prev]) := by
  simp [pipeLoop, he]

/-- Unfolding lemma: a failed spawn of the previous command aborts the
loop with `ExecError` and the sentinel code -1. -/
theorem pipeLoop_step_some_err {os : Os} {a : String} {as : List String}
    {rest : List (List String)} {prev : Command} {spawned : List Command}
    {m : String} (he : os.spawn prev = .err m) :
    pipeLoop os ((a :: as) :: rest) (some prev) spawned =
      (.error ⟨.execError, some (-1), "spawning failed: " ++ m⟩, spawned) := by
  simp [pipeLoop, he]

/-- When every spawn succeeds and `output` is the constant `r`, the loop
on a nonempty pipeline of nonempty stages classifies exactly `r`. -/
theorem pipeLoop_const_output (os : Os) (r : RunResult)
    (hout : ∀ c, os.output c = r)
    (hsp : ∀ c, (os.spawn c).isOk = true) :
    ∀ rest : List (List String), rest ≠ [] → (∀ s ∈ rest, s ≠ []) →
      ∀ (lc : Option Command) (spawned : List Command),
        (pipeLoop os rest lc spawned).1 = finalize r := by
  intro rest
  induction rest with
  | nil => intro h _ _ _; exact absurd rfl h
  | cons c rest ih =>
    intro _ hne lc spawned
    obtain ⟨a, as, rfl⟩ :=
      List.exists_cons_of_ne_nil (hne c (List.mem_cons_self c rest))
    have key : ∀ (cmd : Command) (sp : List Command),
        (pipeLoop os rest (some cmd) sp).1 = finalize r := by
      intro cmd sp
      cases rest with
      | nil => simp [pipeLoop, hout]
      | cons d rest2 =>
        exact ih (by simp) (fun s hs => hne s (List.mem_cons_of_mem _ hs))
          (some cmd) sp
    cases lc with
    | none =>
      rw [pipeLoop_step_none]
      exact key _ _
    | some prev =>
      have hpok := hsp prev
      cases he : os.spawn prev with
      | err m => rw [he] at hpok; simp [SpawnResult.isOk] at hpok
      | ok h e =>
        cases h with
        | none => rw [pipeLoop_step_some_ok_none he]; exact key _ _
        | some hh => rw [pipeLoop_step_some_ok_some he]; exact key _ _

/-- Same as `pipeLoop_const_output`, lifted to `pipe`. -/
theorem pipe_const_output (os : Os) (cmds : List (List String)) (r : RunResult)
    (h1 : cmds ≠ []) (h2 : ∀ s ∈ cmds, s ≠ [])
    (hsp : ∀ c, (os.spawn c).isOk = true)
    (hout : ∀ c, os.output c = r) :
    pipe os cmds = finalize r := by
  have hlen : ¬ (cmds.length < 1) := by
    simp [Nat.lt_one_iff, List.length_eq_zero, h1]
  unfold pipe pipeFull
  rw [if_neg hlen]
  exact pipeLoop_const_output os r hout hsp cmds h1 h2 none []

/-- When every spawn succeeds without a stdout handle, the loop runs the
last stage with its stdin still unconfigured. -/
theorem pipeLoop_nostdout (os : Os) (hsp : ∀ c, ∃ e, os.spawn c = .ok none e) :
    ∀ (mid : List (List String)) (lastS : List String),
      (∀ s ∈ mid, s ≠ []) → lastS ≠ [] →
      ∀ (lc : Option Command) (spawned : List Command),
        (pipeLoop os (mid ++ [lastS]) lc spawned).1 =
          finalize (os.output (mkCommand lastS)) := by
  intro mid
  induction mid with
  | nil =>
    intro lastS _ hlast lc spawned
    obtain ⟨a, as, rfl⟩ := List.exists_cons_of_ne_nil hlast
    rw [List.nil_append]
    cases lc with
    | none => rw [pipeLoop_step_none]; rfl
    | some prev =>
      obtain ⟨e, he⟩ := hsp prev
      rw [pipeLoop_step_some_ok_none he]
      rfl
  | cons c mid ih =>
    intro lastS hne hlast lc spawned
    obtain ⟨a, as, rfl⟩ :=
      List.exists_cons_of_ne_nil (hne c (List.mem_cons_self c mid))
    have hne' : ∀ s ∈ mid, s ≠ [] := fun s hs => hne s (List.mem_cons_of_mem _ hs)
    rw [List.cons_append]
    cases lc with
    | none =>
      rw [pipeLoop_step_none]
      exact ih lastS hne' hlast _ _
    | some prev =>
      obtain ⟨e, he⟩ := hsp prev
      rw [pipeLoop_step_some_ok_none he]
      exact ih lastS hne' hlast _ _

/-- The program names the loop will have spawned by the time it reaches
the stage list tail, as a function of the stages before the first empty
stage and the pending previous command: the pending command plus the
built commands of all those stages but the last (the last is constructed
but not spawned, since the empty stage's validation aborts first). -/
def spawnedNames : List (List String) → Option Command → List String
  | [], _ => []
  | p :: pr, none => ((p :: pr).dropLast).map List.headI
  | p :: pr, some c => c.program :: ((p :: pr).dropLast).map List.headI

/-- When every spawn succeeds, a pipeline whose first empty stage follows
the nonempty stages `pre` makes the loop return `InvalidFormatError` with
details "no command binary supplied", having spawned exactly the commands
described by `spawnedNames`. -/
theorem pipeLoop_first_empty (os : Os) (hsp : ∀ c, (os.spawn c).isOk = true)
    (rest : List (List String)) :
    ∀ (pre : List (List String)) (lc : Option Command) (spawned : List Command),
      (∀ s ∈ pre, s ≠ []) →
      (pipeLoop os (pre ++ [] :: rest) lc spawned).1 =
          .error ⟨.invalidFormatError, some (-1), "no command binary supplied"⟩ ∧
      ((pipeLoop os (pre ++ [] :: rest) lc spawned).2).map (fun c => c.program) =
          spawned.map (fun c => c.program) ++ spawnedNames pre lc := by
  intro pre
  induction pre with
  | nil =>
    intro lc spawned _
    rw [List.nil_append, pipeLoop_empty_stage]
    exact ⟨rfl, by simp [spawnedNames]⟩
  | cons p pr ih =>
    intro lc spawned hne
    obtain ⟨a, as, rfl⟩ :=
      List.exists_cons_of_ne_nil (hne p (List.mem_cons_self p pr))
    have hne' : ∀ s ∈ pr, s ≠ [] := fun s hs => hne s (List.mem_cons_of_mem _ hs)
    rw [List.cons_append]
    cases lc with
    | none =>
      rw [pipeLoop_step_none]
      obtain ⟨h1, h2⟩ := ih (some (mkCommand (a :: as))) spawned hne'
      refine ⟨h1, ?_⟩
      rw [h2]
      cases pr with
      | nil => simp [spawnedNames]
      | cons q qr => simp [spawnedNames, mkCommand, List.dropLast]
    | some prev =>
      have hpok := hsp prev
      cases he : os.spawn prev with
      | err m => rw [he] at hpok; simp [SpawnResult.isOk] at hpok
      | ok h e =>
        have key : ∀ cmd2 : Command, cmd2.program = a →
            ((pipeLoop os (pr ++ [] :: rest) (some cmd2) (spawned ++ [prev])).1 =
              .error ⟨.invalidFormatError, some (-1), "no command binary supplied"⟩ ∧
            ((pipeLoop os (pr ++ [] :: rest) (some cmd2) (spawned ++ [prev])).2).map
                (fun c => c.program) =
              spawned.map (fun c => c.program) ++
                spawnedNames ((a :: as) :: pr) (some prev)) := by
          intro cmd2 hprog
          obtain ⟨h1, h2⟩ := ih (some cmd2) (spawned ++ [prev]) hne'
          refine ⟨h1, ?_⟩
          rw [h2]
          cases pr with
          | nil => simp [spawnedNames]
          | cons q qr => simp [spawnedNames, hprog, List.dropLast]
        cases h with
        | none =>
          rw [pipeLoop_step_some_ok_none he]
          exact key _ rfl
        | some hh =>
          rw [pipeLoop_step_some_ok_some he]
          exact key _ rfl

/-- The number of commands the loop spawns is bounded by the number of
leading nonempty stages: no stage is spawned unless every stage up to and
including it has passed validation. -/
theorem pipeLoop_trace_le (os : Os) :
    ∀ (rest : List (List String)) (lc : Option Command) (spawned : List Command),
      ((pipeLoop os rest lc spawned).2).length ≤
        spawned.length + (rest.takeWhile (fun s => !s.isEmpty)).length := by
  intro rest
  induction rest with
  | nil => intro lc spawned; cases lc <;> simp [pipeLoop]
  | cons c rest ih =>
    intro lc spawned
    cases c with
    | nil =>
      rw [pipeLoop_empty_stage]
      simp [List.takeWhile]
    | cons a as =>
      have htw : (((a :: as) :: rest).takeWhile (fun s => !s.isEmpty)).length =
          (rest.takeWhile (fun s => !s.isEmpty)).length + 1 := by
        simp [List.takeWhile, List.isEmpty]
      rw [htw]
      cases lc with
      | none =>
        rw [pipeLoop_step_none]
        have := ih (some (mkCommand (a :: as))) spawned
        omega
      | some prev =>
        cases he : os.spawn prev with
        | err m =>
          rw [pipeLoop_step_some_err he]
          simp
        | ok h e =>
          have hstep : ∃ cmd2 : Command,
              pipeLoop os ((a :: as) :: rest) (some prev) spawned =
                pipeLoop os rest (some cmd2) (spawned ++ [prev]) := by
            cases h with
            | none => exact ⟨_, pipeLoop_step_some_ok_none he⟩
            | some hh => exact ⟨_, pipeLoop_step_some_ok_some he⟩
          obtain ⟨cmd2, hstep⟩ := hstep
          rw [hstep]
          have := ih (some cmd2) (spawned ++ [prev])
          simp only [List.length_append, List.length_cons, List.length_nil] at this
          omega

/-- When every spawn of a program other than `failP` succeeds and every
spawn of `failP` fails with message `m`, a pipeline that reaches the
stage after the one running `failP` aborts with `ExecError`, the sentinel
code -1 and details containing `m`. -/
theorem pipeLoop_spawn_fail (os : Os) (failP m : String)
    (hs : ∀ c : Command, c.program ≠ failP → (os.spawn c).isOk = true)
    (hfail : ∀ c : Command, c.program = failP → os.spawn c = .err m)
    (f cur : List String) (rest : List (List String))
    (hf : f ≠ []) (hfp : f.headI = failP) (hcur : cur ≠ []) :
    ∀ (pre : List (List String)) (lc : Option Command) (spawned : List Command),
      (∀ s ∈ pre, s ≠ [] ∧ s.headI ≠ failP) →
      (∀ c0, lc = some c0 → c0.program ≠ failP) →
      (pipeLoop os (pre ++ f :: cur :: rest) lc spawned).1 =
        .error ⟨.execError, some (-1), "spawning failed: " ++ m⟩ := by
  intro pre
  induction pre with
  | nil =>
    intro lc spawned _ hlc
    obtain ⟨fa, fas, rfl⟩ := List.exists_cons_of_ne_nil hf
    obtain ⟨ca, cas, rfl⟩ := List.exists_cons_of_ne_nil hcur
    have hfprog : (mkCommand (fa :: fas)).program = failP := hfp
    rw [List.nil_append]
    cases lc with
    | none =>
      rw [pipeLoop_step_none, pipeLoop_step_some_err (hfail _ hfprog)]
    | some prev =>
      have hpok := hs prev (hlc prev rfl)
      cases he : os.spawn prev with
      | err mm => rw [he] at hpok; simp [SpawnResult.isOk] at hpok
      | ok h e =>
        cases h with
        | none =>
          rw [pipeLoop_step_some_ok_none he,
            pipeLoop_step_some_err (hfail _ hfprog)]
        | some hh =>
          have hfprog2 :
              ({ mkCommand (fa :: fas) with stdin := some hh } : Command).program
                = failP := hfp
          rw [pipeLoop_step_some_ok_some he,
            pipeLoop_step_some_err (hfail _ hfprog2)]
  | cons p pr ih =>
    intro lc spawned hpre hlc
    obtain ⟨a, as, rfl⟩ :=
      List.exists_cons_of_ne_nil (hpre p (List.mem_cons_self p pr)).1
    have hprog : a ≠ failP := (hpre _ (List.mem_cons_self _ _)).2
    have hpre' : ∀ s ∈ pr, s ≠ [] ∧ s.headI ≠ failP :=
      fun s hs2 => hpre s (List.mem_cons_of_mem _ hs2)
    rw [List.cons_append]
    cases lc with
    | none =>
      rw [pipeLoop_step_none]
      exact ih (some (mkCommand (a :: as))) spawned hpre'
        (fun c0 hc0 => by cases hc0; exact hprog)
    | some prev =>
      have hpok := hs prev (hlc prev rfl)
      cases he : os.spawn prev with
      | err mm => rw [he] at hpok; simp [SpawnResult.isOk] at hpok
      | ok h e =>
        cases h with
        | none =>
          rw [pipeLoop_step_some_ok_none he]
          exact ih (some (mkCommand (a :: as))) (spawned ++ [prev]) hpre'
            (fun c0 hc0 => by cases hc0; exact hprog)
        | some hh =>
          rw [pipeLoop_step_some_ok_some he]
          exact ih (some { mkCommand (a :: as) with stdin := some hh })
            (spawned ++ [prev]) hpre'
            (fun c0 hc0 => by cases hc0; exact hprog)

/-- Two OS capabilities agree on the spawn chain when every spawn gives
the same success/failure outcome, the same stdout handle and the same
failure message, the eventual exit statuses of the spawned (and never
awaited) children being allowed to differ arbitrarily. -/
def spawnShapeEq (os1 os2 : Os) : Prop :=
  ∀ c, match os1.spawn c, os2.spawn c with
    | .ok h1 _, .ok h2 _ => h1 = h2
    | .err m1, .err m2 => m1 = m2
    | _, _ => False

/-- The loop is invariant under changing the exit statuses of spawned
intermediate stages, provided the spawn chain and the last stage's
behaviour are unchanged. -/
theorem pipeLoop_shape_eq {os1 os2 : Os} (hsh : spawnShapeEq os1 os2)
    (hout : ∀ c, os1.output c = os2.output c) :
    ∀ (rest : List (List String)) (lc : Option Command) (spawned : List Command),
      pipeLoop os1 rest lc spawned = pipeLoop os2 rest lc spawned := by
  intro rest
  induction rest with
  | nil =>
    intro lc spawned
    cases lc with
    | none => rfl
    | some cmd => simp [pipeLoop, hout cmd]
  | cons c rest ih =>
    intro lc spawned
    cases c with
    | nil => rw [pipeLoop_empty_stage, pipeLoop_empty_stage]
    | cons a as =>
      cases lc with
      | none => rw [pipeLoop_step_none, pipeLoop_step_none, ih]
      | some prev =>
        have hc := hsh prev
        cases h1 : os1.spawn prev with
        | ok o1 e1 =>
          cases h2 : os2.spawn prev with
          | ok o2 e2 =>
            rw [h1, h2] at hc
            simp only at hc
            subst hc
            cases o1 with
            | none =>
              rw [pipeLoop_step_some_ok_none h1,
                pipeLoop_step_some_ok_none h2, ih]
            | some hh =>
              rw [pipeLoop_step_some_ok_some h1,
                pipeLoop_step_some_ok_some h2, ih]
          | err m2 => rw [h1, h2] at hc; simp only at hc
        | err m1 =>
          cases h2 : os2.spawn prev with
          | ok o2 e2 => rw [h1, h2] at hc; simp only at hc
          | err m2 =>
            rw [h1, h2] at hc
            simp only at hc
            subst hc
            rw [pipeLoop_step_some_err h1, pipeLoop_step_some_err h2]

/-- C1: the claim says every error returned by `pipe` has a kind drawn
from the closed five-member set and that no other kinds exist in the
error type.  But the `ErrorKind` enum declared in `src/src/error.rs` has
only the four variants listed in `errorRsVariants`, while `pipe` (here on
the empty pipeline) returns an error of the fifth kind
`InvalidFormatError`: `src/lib.rs` and its tests reference a variant the
error type does not declare, so the code contradicts itself. -/
theorem C1_invalidFormatError_not_declared :
    pipe osAllOk [] =
      .error ⟨.invalidFormatError, some (-1), "no commands supplied"⟩ ∧
    kindName ErrorKind.invalidFormatError ∉ errorRsVariants ∧
    errorRsVariants.length = 4 := by
  decide

/-- C2 counterexample: a pipeline containing a zero-token stage (stage 2)
for which `pipe` does not return the claimed `InvalidFormatError`: the
spawn of stage 0, attempted while wiring stage 1, fails first and `pipe`
returns that spawn failure's `ExecError` instead. -/
theorem C2_empty_stage_cex :
    (∃ s ∈ [["a"], ["b"], ([] : List String)], s = []) ∧
    pipe osSpawnFail [["a"], ["b"], []] =
      .error ⟨.execError, some (-1), "spawning failed: boom"⟩ ∧
    pipe osSpawnFail [["a"], ["b"], []] ≠
      .error ⟨.invalidFormatError, some (-1), "no command binary supplied"⟩ := by
  decide

/-- C2 (amended): for the empty pipeline `pipe` returns
`InvalidFormatError` with code -1 and details "no commands supplied"; and
for a pipeline whose first zero-token stage follows the nonempty stages
`pre`, provided every spawn the OS performs succeeds, `pipe` returns
`InvalidFormatError` with code -1 and details "no command binary
supplied" for that first zero-token stage. -/
theorem C2_empty_validation (os : Os) (pre rest : List (List String))
    (hsp : ∀ c, (os.spawn c).isOk = true)
    (hpre : ∀ s ∈ pre, s ≠ []) :
    pipe os [] =
      .error ⟨.invalidFormatError, some (-1), "no commands supplied"⟩ ∧
    pipe os (pre ++ [] :: rest) =
      .error ⟨.invalidFormatError, some (-1), "no command binary supplied"⟩ := by
  constructor
  · rfl
  · have hlen : ¬ ((pre ++ [] :: rest).length < 1) := by
      simp [Nat.lt_one_iff]
    unfold pipe pipeFull
    rw [if_neg hlen]
    exact (pipeLoop_first_empty os hsp rest pre none [] hpre).1

/-- C2 witness: the amended theorem applied to a concrete OS with
succeeding spawns and to the pipeline [["a"], [], ["b"]]. -/
theorem C2_empty_validation_witness :
    pipe osAllOk [] =
      .error ⟨.invalidFormatError, some (-1), "no commands supplied"⟩ ∧
    pipe osAllOk ([["a"]] ++ [] :: [["b"]]) =
      .error ⟨.invalidFormatError, some (-1), "no command binary supplied"⟩ :=
  C2_empty_validation osAllOk [["a"]] [["b"]] (fun _ => rfl) (by decide)

/-- C3: when every spawn succeeds and the OS cannot start the last stage
(its `output` call reports an io error), `pipe` returns `OsError` with
code the raw OS error number and details the OS message when a raw
number is present, and `UnknownError` with no code and details the OS
message otherwise. -/
theorem C3_start_failure_classified (os : Os) (cmds : List (List String))
    (raw : Option Int) (msg : String)
    (h1 : cmds ≠ []) (h2 : ∀ s ∈ cmds, s ≠ [])
    (hsp : ∀ c, (os.spawn c).isOk = true)
    (hout : ∀ c, os.output c = .err raw msg) :
    (∀ n : Int, raw = some n →
      pipe os cmds = .error ⟨.osError, some n, msg⟩) ∧
    (raw = none → pipe os cmds = .error ⟨.unknownError, none, msg⟩) := by
  have hp := pipe_const_output os cmds (.err raw msg) h1 h2 hsp hout
  constructor
  · intro n hn; subst hn; exact hp
  · intro hn; subst hn; exact hp

/-- C3 witness: a single nonexistent executable under an OS reporting
ENOENT (raw error 2). -/
theorem C3_start_failure_witness :
    (∀ n : Int, (some 2 : Option Int) = some n →
      pipe osStartFail [["x"]] =
        .error ⟨.osError, some n, "No such file or directory (os error 2)"⟩) ∧
    ((some 2 : Option Int) = none →
      pipe osStartFail [["x"]] =
        .error ⟨.unknownError, none, "No such file or directory (os error 2)"⟩) :=
  C3_start_failure_classified osStartFail [["x"]] (some 2)
    "No such file or directory (os error 2)" (by decide) (by decide)
    (fun _ => rfl) (fun _ => rfl)

/-- C4: when every spawn succeeds and the last stage starts but exits
with non-zero status, `pipe` returns `ExecError` whose code is exactly
the process's exit code (which is `none` when the process was killed by
a signal) and whose details are "non-zero exit code". -/
theorem C4_nonzero_exit_classified (os : Os) (cmds : List (List String))
    (code : Option Int) (bytes : List Nat)
    (h1 : cmds ≠ []) (h2 : ∀ s ∈ cmds, s ≠ [])
    (hsp : ∀ c, (os.spawn c).isOk = true)
    (hout : ∀ c, os.output c = .ok false code bytes) :
    pipe os cmds = .error ⟨.execError, code, "non-zero exit code"⟩ :=
  pipe_const_output os cmds (.ok false code bytes) h1 h2 hsp hout

/-- C4 witness: a single command exiting with status 1. -/
theorem C4_nonzero_exit_witness :
    pipe osExitOne [["x"]] = .error ⟨.execError, some 1, "non-zero exit code"⟩ :=
  C4_nonzero_exit_classified osExitOne [["x"]] (some 1) [] (by decide)
    (by decide) (fun _ => rfl) (fun _ => rfl)

/-- C5: when every spawn succeeds and the last stage exits with zero
status but its captured stdout bytes are not valid UTF-8, `pipe` returns
`UnicodeDecodeError` with no code and details "utf-8 decode failed". -/
theorem C5_invalid_utf8_classified (os : Os) (cmds : List (List String))
    (code : Option Int) (bytes : List Nat)
    (h1 : cmds ≠ []) (h2 : ∀ s ∈ cmds, s ≠ [])
    (hsp : ∀ c, (os.spawn c).isOk = true)
    (hout : ∀ c, os.output c = .ok true code bytes)
    (hbad : utf8Valid bytes = false) :
    pipe os cmds =
      .error ⟨.unicodeDecodeError, none, "utf-8 decode failed"⟩ := by
  have hp := pipe_const_output os cmds (.ok true code bytes) h1 h2 hsp hout
  rw [hp]
  simp [finalize, hbad]

/-- C5 witness: a successful command whose stdout is the single invalid
byte 0xFF. -/
theorem C5_invalid_utf8_witness :
    pipe osBadUtf8 [["x"]] =
      .error ⟨.unicodeDecodeError, none, "utf-8 decode failed"⟩ :=
  C5_invalid_utf8_classified osBadUtf8 [["x"]] (some 0) [255] (by decide)
    (by decide) (fun _ => rfl) (fun _ => rfl) (by decide)

/-- C6: when every spawn succeeds and the last stage exits with zero
status and valid UTF-8 stdout bytes, `pipe` returns exactly those bytes
decoded, with no trimming or transformation (trailing newline included). -/
theorem C6_valid_output_returned (os : Os) (cmds : List (List String))
    (code : Option Int) (bytes : List Nat)
    (h1 : cmds ≠ []) (h2 : ∀ s ∈ cmds, s ≠ [])
    (hsp : ∀ c, (os.spawn c).isOk = true)
    (hout : ∀ c, os.output c = .ok true code bytes)
    (hgood : utf8Valid bytes = true) :
    pipe os cmds = .ok bytes := by
  have hp := pipe_const_output os cmds (.ok true code bytes) h1 h2 hsp hout
  rw [hp]
  simp [finalize, hgood]

/-- C6 witness: a successful command whose stdout is "hi\n" (bytes 104,
105, 10), returned byte-exact including the trailing newline. -/
theorem C6_valid_output_witness :
    pipe osAllOk [["x"]] = .ok [104, 105, 10] :=
  C6_valid_output_returned osAllOk [["x"]] (some 0) [104, 105, 10]
    (by decide) (by decide) (fun _ => rfl) (fun _ => rfl) (by decide)

/-- C7: in a pipeline of at least two stages, if spawning stage i-1 (the
stage running program `failP`, preceded by the stages `pre`) fails while
stage i is being wired, `pipe` returns immediately with `ExecError`,
sentinel code -1, and a details string that includes the underlying
spawn failure message. -/
theorem C7_spawn_chain_failure (os : Os) (pre : List (List String))
    (f cur : List String) (rest : List (List String)) (failP m : String)
    (hpre : ∀ s ∈ pre, s ≠ [] ∧ s.headI ≠ failP)
    (hf : f ≠ []) (hfp : f.headI = failP) (hcur : cur ≠ [])
    (hs : ∀ c : Command, c.program ≠ failP → (os.spawn c).isOk = true)
    (hfail : ∀ c : Command, c.program = failP → os.spawn c = .err m) :
    pipe os (pre ++ f :: cur :: rest) =
      .error ⟨.execError, some (-1), "spawning failed: " ++ m⟩ ∧
    ∃ p : String, "spawning failed: " ++ m = p ++ m := by
  refine ⟨?_, ⟨"spawning failed: ", rfl⟩⟩
  have hlen : ¬ ((pre ++ f :: cur :: rest).length < 1) := by
    simp [Nat.lt_one_iff]
  unfold pipe pipeFull
  rw [if_neg hlen]
  exact pipeLoop_spawn_fail os failP m hs hfail f cur rest hf hfp hcur pre
    none [] hpre (fun c0 hc0 => nomatch hc0)

/-- C7 witness: the three-stage pipeline [["a"], ["bad"], ["c"]] under an
OS on which spawning the program "bad" (stage 1) fails with message
"boom" while stage 2 is being wired. -/
theorem C7_spawn_chain_failure_witness :
    pipe osSpawnFailOnBad ([["a"]] ++ ["bad"] :: ["c"] :: []) =
      .error ⟨.execError, some (-1), "spawning failed: " ++ "boom"⟩ ∧
    ∃ p : String, "spawning failed: " ++ "boom" = p ++ "boom" :=
  C7_spawn_chain_failure osSpawnFailOnBad [["a"]] ["bad"] ["c"] [] "bad" "boom"
    (by decide) (by decide) (by decide) (by decide)
    (fun c hc => by simp [osSpawnFailOnBad, SpawnResult.isOk, hc])
    (fun c hc => by simp [osSpawnFailOnBad, hc])

/-- C8 counterexample: in the pipeline [["a"], []] the zero-token stage
is stage 1, so the claim asserts stage 0 has already been spawned when
`pipe` returns the `InvalidFormatError`; but the run spawns nothing,
because stage 1's validation happens before stage 0 would have been
spawned. -/
theorem C8_spawned_prefix_cex :
    pipe osAllOk [["a"], []] =
      .error ⟨.invalidFormatError, some (-1), "no command binary supplied"⟩ ∧
    spawnTrace osAllOk [["a"], []] = [] ∧
    mkCommand ["a"] ∉ spawnTrace osAllOk [["a"], []] := by
  decide

/-- C8 (amended): when stage i (i ≥ 1, the first zero-token stage,
preceded by the nonempty stages `pre`) fails validation and every spawn
succeeds, `pipe` returns the `InvalidFormatError` having spawned exactly
stages 0 through i-2 (stage i-1 is constructed but not yet spawned); and
in every run, no stage is spawned before all stages up to and including
it have passed validation (the spawn count never exceeds the number of
leading nonempty stages). -/
theorem C8_spawned_prefix (os : Os) (pre rest : List (List String))
    (hpre1 : pre ≠ []) (hpre : ∀ s ∈ pre, s ≠ [])
    (hsp : ∀ c, (os.spawn c).isOk = true) :
    (pipe os (pre ++ [] :: rest) =
        .error ⟨.invalidFormatError, some (-1), "no command binary supplied"⟩ ∧
      (spawnTrace os (pre ++ [] :: rest)).map (fun c => c.program) =
        (pre.dropLast).map List.headI) ∧
    (∀ (os2 : Os) (cmds : List (List String)),
      (spawnTrace os2 cmds).length ≤
        (cmds.takeWhile (fun s => !s.isEmpty)).length) := by
  have hlen : ¬ ((pre ++ [] :: rest).length < 1) := by
    simp [Nat.lt_one_iff]
  have h := pipeLoop_first_empty os hsp rest pre none [] hpre
  refine ⟨⟨?_, ?_⟩, ?_⟩
  · unfold pipe pipeFull
    rw [if_neg hlen]
    exact h.1
  · unfold spawnTrace pipeFull
    rw [if_neg hlen]
    obtain ⟨p, pr, rfl⟩ := List.exists_cons_of_ne_nil hpre1
    simpa [spawnedNames] using h.2
  · intro os2 cmds
    unfold spawnTrace pipeFull
    by_cases hl : cmds.length < 1
    · rw [if_pos hl]
      simp
    · rw [if_neg hl]
      have := pipeLoop_trace_le os2 cmds none []
      simpa using this

/-- C8 witness: the amended theorem applied to the pipeline
[["a"], ["b"], []]: only stage 0 is spawned (trace program list ["a"]). -/
theorem C8_spawned_prefix_witness :
    (pipe osAllOk ([["a"], ["b"]] ++ [] :: []) =
        .error ⟨.invalidFormatError, some (-1), "no command binary supplied"⟩ ∧
      (spawnTrace osAllOk ([["a"], ["b"]] ++ [] :: [])).map (fun c => c.program) =
        ([["a"], ["b"]].dropLast).map List.headI) ∧
    (∀ (os2 : Os) (cmds : List (List String)),
      (spawnTrace os2 cmds).length ≤
        (cmds.takeWhile (fun s => !s.isEmpty)).length) :=
  C8_spawned_prefix osAllOk [["a"], ["b"]] [] (by decide) (by decide)
    (fun _ => rfl)

/-- C9: the result of `pipe` depends only on the spawn chain and the last
stage's behaviour: two OS capabilities that agree on every spawn's
success, stdout handle and failure message — differing only in the exit
statuses of spawned intermediate stages — and on the last stage's
`output` yield identical results (spawn trace included); in particular a
run that succeeds keeps succeeding, so an intermediate stage's non-zero
exit by itself never yields `ExecError`. -/
theorem C9_intermediate_exit_invariance (os1 os2 : Os)
    (cmds : List (List String))
    (hsh : spawnShapeEq os1 os2)
    (hout : ∀ c, os1.output c = os2.output c) :
    pipeFull os1 cmds = pipeFull os2 cmds ∧
    (∀ v, pipe os1 cmds = .ok v → pipe os2 cmds = .ok v) := by
  have h : pipeFull os1 cmds = pipeFull os2 cmds := by
    by_cases hl : cmds.length < 1
    · simp [pipeFull, hl]
    · unfold pipeFull
      rw [if_neg hl, if_neg hl]
      exact pipeLoop_shape_eq hsh hout cmds none []
  refine ⟨h, fun v hv => ?_⟩
  unfold pipe at hv ⊢
  rw [← h]
  exact hv

/-- C9 witness: two OS capabilities identical except that spawned
intermediate stages exit with status 0 in one and status 1 in the other,
on the two-stage pipeline [["a"], ["b"]]. -/
theorem C9_intermediate_exit_invariance_witness :
    pipeFull osAllOk [["a"], ["b"]] = pipeFull osAllOkExitOne [["a"], ["b"]] ∧
    (∀ v, pipe osAllOk [["a"], ["b"]] = .ok v →
      pipe osAllOkExitOne [["a"], ["b"]] = .ok v) :=
  C9_intermediate_exit_invariance osAllOk osAllOkExitOne [["a"], ["b"]]
    (fun _ => rfl) (fun _ => rfl)

/-- C10: in a pipeline of at least two stages, when spawning a previous
stage succeeds but the spawned child exposes no stdout handle, `pipe`
raises no error: the next stage's stdin is silently left unconfigured
(still `none` on the final command) and execution continues through to
the last stage's classification. -/
theorem C10_missing_stdout_silent (os : Os) (mid : List (List String))
    (lastS : List String)
    (hmid : mid ≠ []) (h2 : ∀ s ∈ mid, s ≠ []) (hlast : lastS ≠ [])
    (hsp : ∀ c, ∃ e, os.spawn c = .ok none e) :
    pipe os (mid ++ [lastS]) = finalize (os.output (mkCommand lastS)) ∧
    (mkCommand lastS).stdin = none := by
  refine ⟨?_, rfl⟩
  have hlen : ¬ ((mid ++ [lastS]).length < 1) := by
    simp [Nat.lt_one_iff]
  unfold pipe pipeFull
  rw [if_neg hlen]
  exact pipeLoop_nostdout os hsp mid lastS h2 hlast none []

/-- C10 witness: the two-stage pipeline [["a"], ["b"]] under an OS whose
spawned children expose no stdout handle. -/
theorem C10_missing_stdout_silent_witness :
    pipe osNoHandle ([["a"]] ++ [["b"]]) =
      finalize (osNoHandle.output (mkCommand ["b"])) ∧
    (mkCommand ["b"]).stdin = none :=
  C10_missing_stdout_silent osNoHandle [["a"]] ["b"] (by decide) (by decide)
    (by decide) (fun _ => ⟨some 0, rfl⟩)

end Shutil
